import Mathlib

/-!
Verification of the PayEase payroll calculation engine
(`execution/validate_calcs.py`, function `calculate_salary`).

Monetary quantities are modelled as rationals (`ℚ`); every amount the
source passes through Python's `round` (round half to even on the exact
value) becomes an integer produced by `pyround`.  The state-keyed table
of Professional Tax slab closures becomes a function on `String` with
the same fallback to Karnataka.
-/

namespace PayEase

/-- Python's `round` to an integer: round half to even. -/
def pyround (q : ℚ) : ℤ :=
  let n := Int.floor q
  let f := q - n
  if f < 1/2 then n
  else if 1/2 < f then n + 1
  else if n % 2 = 0 then n else n + 1

-- ── Statutory constants (mirroring the module-level constants) ─────────

def PF_BASIC_CAP : ℤ := 15000
def PF_EMPLOYEE_RATE : ℚ := 12/100
def PF_EMPLOYER_EPF_RATE : ℚ := 367/10000
def PF_EMPLOYER_EPS_RATE : ℚ := 833/10000
def PF_MAX_EMPLOYEE : ℤ := 1800
def ESI_GROSS_LIMIT : ℤ := 21000
def ESI_EMPLOYEE_RATE : ℚ := 75/10000
def ESI_EMPLOYER_RATE : ℚ := 325/10000

-- ── Professional-tax slab functions, one per jurisdiction ──────────────

def karnatakaPT (s : ℚ) : ℤ := if 15000 < s then 200 else 0

def maharashtraPT (s : ℚ) : ℤ :=
  if 10000 < s then 200 else if 7500 < s then 175 else 0

def tamilNaduPT (s : ℚ) : ℤ :=
  if 21000 < s then 208 else if 15000 < s then 180
  else if 12500 < s then 115 else 0

def gujaratPT (_ : ℚ) : ℤ := 0

def delhiPT (_ : ℚ) : ℤ := 0

/-- The `PT_RATES` dictionary together with the `.get(state,
`PT_RATES["Karnataka"])` fallback used at the call site. -/
def PT_RATES (state : String) (s : ℚ) : ℤ :=
  if state = "Karnataka" then karnatakaPT s
  else if state = "Maharashtra" then maharashtraPT s
  else if state = "Tamil Nadu" then tamilNaduPT s
  else if state = "Gujarat" then gujaratPT s
  else if state = "Delhi" then delhiPT s
  else karnatakaPT s

-- ── The calculation, one definition per intermediate of the source ─────

def monthly_ctc (a : ℚ) : ℚ := a / 12

def basicOf (a bp : ℚ) : ℤ := pyround (monthly_ctc a * (bp / 100))

def hraOf (a bp hp : ℚ) : ℤ := pyround ((basicOf a bp : ℚ) * (hp / 100))

def pfBasicOf (a bp : ℚ) : ℤ := min (basicOf a bp) PF_BASIC_CAP

def employerPFOf (a bp : ℚ) (pf : Bool) : ℤ :=
  if pf then pyround ((pfBasicOf a bp : ℚ) * (PF_EMPLOYER_EPF_RATE + PF_EMPLOYER_EPS_RATE))
  else 0

def esiApplicableOf (a bp hp : ℚ) : Bool :=
  decide (basicOf a bp + hraOf a bp hp ≤ ESI_GROSS_LIMIT)

def specialAllowance1Of (a bp hp : ℚ) (pf : Bool) : ℚ :=
  monthly_ctc a - basicOf a bp - hraOf a bp hp - employerPFOf a bp pf

def grossSalary1Of (a bp hp : ℚ) (pf : Bool) : ℚ :=
  basicOf a bp + hraOf a bp hp + specialAllowance1Of a bp hp pf

def employerESIOf (a bp hp : ℚ) (pf : Bool) : ℤ :=
  if esiApplicableOf a bp hp then pyround (grossSalary1Of a bp hp pf * ESI_EMPLOYER_RATE)
  else 0

def specialAllowanceOf (a bp hp : ℚ) (pf : Bool) : ℚ :=
  let s := monthly_ctc a - basicOf a bp - hraOf a bp hp - employerPFOf a bp pf
    - employerESIOf a bp hp pf
  if s < 0 then 0 else s

def grossSalaryOf (a bp hp : ℚ) (pf : Bool) : ℚ :=
  basicOf a bp + hraOf a bp hp + specialAllowanceOf a bp hp pf

def employeePFOf (a bp : ℚ) (pf : Bool) : ℤ :=
  if pf then min (pyround ((pfBasicOf a bp : ℚ) * PF_EMPLOYEE_RATE)) PF_MAX_EMPLOYEE
  else 0

def employeeESIOf (a bp hp : ℚ) (pf : Bool) : ℤ :=
  if esiApplicableOf a bp hp then pyround (grossSalaryOf a bp hp pf * ESI_EMPLOYEE_RATE)
  else 0

def professionalTaxOf (a bp hp : ℚ) (pf pt : Bool) (state : String) : ℤ :=
  if pt then PT_RATES state (grossSalaryOf a bp hp pf) else 0

def tdsOf : ℤ := 0

def totalDeductionsOf (a bp hp : ℚ) (pf pt : Bool) (state : String) : ℤ :=
  employeePFOf a bp pf + employeeESIOf a bp hp pf
    + professionalTaxOf a bp hp pf pt state + tdsOf

def netSalaryOf (a bp hp : ℚ) (pf pt : Bool) (state : String) : ℚ :=
  grossSalaryOf a bp hp pf - totalDeductionsOf a bp hp pf pt state

/-- The returned record of `calculate_salary`; every field is a monetary
amount as the Python dict holds it (integers where `round` produced them,
exact rationals elsewhere). -/
structure SalaryResult where
  basic : ℚ
  hra : ℚ
  special_allowance : ℚ
  gross_salary : ℚ
  employer_pf : ℚ
  employer_esi : ℚ
  employee_pf : ℚ
  employee_esi : ℚ
  professional_tax : ℚ
  tds : ℚ
  total_deductions : ℚ
  net_salary : ℚ
  monthly_ctc : ℚ
deriving DecidableEq, Repr

/-- `calculate_salary(annual_ctc, basic_pct, hra_pct, pf_enabled,
pt_enabled, state)` — the whole function, assembling the intermediates. -/
def calculate_salary (annual_ctc basic_pct hra_pct : ℚ)
    (pf_enabled pt_enabled : Bool) (state : String) : SalaryResult :=
  { basic := basicOf annual_ctc basic_pct
    hra := hraOf annual_ctc basic_pct hra_pct
    special_allowance := specialAllowanceOf annual_ctc basic_pct hra_pct pf_enabled
    gross_salary := grossSalaryOf annual_ctc basic_pct hra_pct pf_enabled
    employer_pf := employerPFOf annual_ctc basic_pct pf_enabled
    employer_esi := employerESIOf annual_ctc basic_pct hra_pct pf_enabled
    employee_pf := employeePFOf annual_ctc basic_pct pf_enabled
    employee_esi := employeeESIOf annual_ctc basic_pct hra_pct pf_enabled
    professional_tax := professionalTaxOf annual_ctc basic_pct hra_pct pf_enabled pt_enabled state
    tds := tdsOf
    total_deductions := totalDeductionsOf annual_ctc basic_pct hra_pct pf_enabled pt_enabled state
    net_salary := netSalaryOf annual_ctc basic_pct hra_pct pf_enabled pt_enabled state
    monthly_ctc := monthly_ctc annual_ctc }

/-- A rational is a whole number of currency units. -/
def isWhole (q : ℚ) : Prop := ∃ n : ℤ, q = (n : ℚ)

-- ── Elementary properties of `pyround` ─────────────────────────────────

theorem floor_le_pyround (q : ℚ) : ⌊q⌋ ≤ pyround q := by
  simp only [pyround]
  split_ifs <;> omega

theorem pyround_le_floor_add_one (q : ℚ) : pyround q ≤ ⌊q⌋ + 1 := by
  simp only [pyround]
  split_ifs <;> omega

theorem pyround_le (q : ℚ) : (pyround q : ℚ) ≤ q + 1/2 := by
  have h1 := Int.floor_le q
  have h2 := Int.lt_floor_add_one q
  simp only [pyround]
  split_ifs with hA hB hC <;> push_cast at * <;> linarith

theorem le_pyround (q : ℚ) : q - 1/2 ≤ (pyround q : ℚ) := by
  have h1 := Int.floor_le q
  have h2 := Int.lt_floor_add_one q
  simp only [pyround]
  split_ifs with hA hB hC <;> push_cast at * <;> linarith

theorem pyround_nonneg {q : ℚ} (h : 0 ≤ q) : 0 ≤ pyround q := by
  have h1 := le_pyround q
  have h2 : (-1 : ℚ) < ((pyround q : ℤ) : ℚ) := by linarith
  have h3 : (-1 : ℤ) < pyround q := by exact_mod_cast h2
  omega

theorem pyround_eq_zero {q : ℚ} (h0 : 0 ≤ q) (h1 : q ≤ 1/2) : pyround q = 0 := by
  have hf : ⌊q⌋ = 0 := by
    rw [Int.floor_eq_zero_iff]
    exact Set.mem_Ico.mpr ⟨h0, by linarith⟩
  simp only [pyround, hf]
  split_ifs with hA hB hC
  · rfl
  · exfalso
    push_cast at hB
    linarith
  · rfl
  · exfalso
    exact hC rfl

theorem pyround_mono {x y : ℚ} (h : x ≤ y) : pyround x ≤ pyround y := by
  rcases lt_or_eq_of_le (Int.floor_mono h) with hf | hf
  · have h1 := pyround_le_floor_add_one x
    have h2 := floor_le_pyround y
    omega
  · simp only [pyround, ← hf]
    split_ifs <;> first
      | omega
      | (exfalso; push_cast at *; linarith)

-- ── Elementary properties of the Professional Tax table ────────────────

theorem PT_RATES_nonneg (st : String) (s : ℚ) : 0 ≤ PT_RATES st s := by
  unfold PT_RATES karnatakaPT maharashtraPT tamilNaduPT gujaratPT delhiPT
  split_ifs <;> omega

theorem PT_RATES_le (st : String) (s : ℚ) : PT_RATES st s ≤ 208 := by
  unfold PT_RATES karnatakaPT maharashtraPT tamilNaduPT gujaratPT delhiPT
  split_ifs <;> omega

theorem PT_RATES_eq_zero (st : String) {s : ℚ} (h : s ≤ 7500) : PT_RATES st s = 0 := by
  unfold PT_RATES karnatakaPT maharashtraPT tamilNaduPT gujaratPT delhiPT
  split_ifs <;> first | rfl | linarith

-- ── Structural facts about the intermediates ───────────────────────────

theorem grossSalary1Of_eq (a bp hp : ℚ) (pf : Bool) :
    grossSalary1Of a bp hp pf = monthly_ctc a - employerPFOf a bp pf := by
  unfold grossSalary1Of specialAllowance1Of
  ring

theorem specialAllowanceOf_nonneg (a bp hp : ℚ) (pf : Bool) :
    0 ≤ specialAllowanceOf a bp hp pf := by
  simp only [specialAllowanceOf]
  split_ifs with h
  · exact le_refl 0
  · exact not_lt.mp h

theorem grossSalaryOf_eq_max (a bp hp : ℚ) (pf : Bool) :
    grossSalaryOf a bp hp pf =
      max ((basicOf a bp : ℚ) + (hraOf a bp hp : ℚ))
        (monthly_ctc a - (employerPFOf a bp pf : ℚ) - (employerESIOf a bp hp pf : ℚ)) := by
  unfold grossSalaryOf
  simp only [specialAllowanceOf]
  split_ifs with h
  · rw [eq_comm, max_eq_left (by linarith)]
    ring
  · rw [eq_comm, max_eq_right (by linarith [not_lt.mp h])]
    ring

theorem basicOf_nonneg {a bp : ℚ} (ha : 0 ≤ a) (hbp : 0 ≤ bp) : 0 ≤ basicOf a bp := by
  apply pyround_nonneg
  unfold monthly_ctc
  exact mul_nonneg (div_nonneg ha (by norm_num)) (div_nonneg hbp (by norm_num))

theorem hraOf_nonneg {a bp hp : ℚ} (ha : 0 ≤ a) (hbp : 0 ≤ bp) (hhp : 0 ≤ hp) :
    0 ≤ hraOf a bp hp := by
  apply pyround_nonneg
  have hb : (0 : ℚ) ≤ (basicOf a bp : ℚ) := by exact_mod_cast basicOf_nonneg ha hbp
  exact mul_nonneg hb (div_nonneg hhp (by norm_num))

theorem pfBasicOf_nonneg {a bp : ℚ} (ha : 0 ≤ a) (hbp : 0 ≤ bp) : 0 ≤ pfBasicOf a bp :=
  le_min (basicOf_nonneg ha hbp) (by norm_num [PF_BASIC_CAP])

theorem employerPFOf_nonneg {a bp : ℚ} (pf : Bool) (ha : 0 ≤ a) (hbp : 0 ≤ bp) :
    0 ≤ employerPFOf a bp pf := by
  unfold employerPFOf
  split_ifs
  · apply pyround_nonneg
    have hp : (0 : ℚ) ≤ (pfBasicOf a bp : ℚ) := by exact_mod_cast pfBasicOf_nonneg ha hbp
    exact mul_nonneg hp (by norm_num [PF_EMPLOYER_EPF_RATE, PF_EMPLOYER_EPS_RATE])
  · exact le_refl 0

theorem employerPFOf_le {a bp : ℚ} (pf : Bool) (hpfb : (0 : ℚ) ≤ (pfBasicOf a bp : ℚ)) :
    (employerPFOf a bp pf : ℚ) ≤ (pfBasicOf a bp : ℚ) * (12/100) + 1/2 := by
  unfold employerPFOf
  split_ifs
  · rw [show PF_EMPLOYER_EPF_RATE + PF_EMPLOYER_EPS_RATE = (12/100 : ℚ) by
      norm_num [PF_EMPLOYER_EPF_RATE, PF_EMPLOYER_EPS_RATE]]
    exact pyround_le ((pfBasicOf a bp : ℚ) * (12/100))
  · push_cast
    nlinarith

-- ── The claims ─────────────────────────────────────────────────────────

/-- C1: for every input, the returned output satisfies all three balance
equations exactly: `grossSalary = basic + hra + specialAllowance`,
`netSalary = grossSalary - totalDeductions`, and
`totalDeductions = employeePF + employeeESI + professionalTax + tds`,
with `tds` always 0. -/
theorem C1_balance_equations (a bp hp : ℚ) (pf pt : Bool) (st : String) :
    (calculate_salary a bp hp pf pt st).gross_salary
        = (calculate_salary a bp hp pf pt st).basic
          + (calculate_salary a bp hp pf pt st).hra
          + (calculate_salary a bp hp pf pt st).special_allowance
      ∧ (calculate_salary a bp hp pf pt st).net_salary
        = (calculate_salary a bp hp pf pt st).gross_salary
          - (calculate_salary a bp hp pf pt st).total_deductions
      ∧ (calculate_salary a bp hp pf pt st).total_deductions
        = (calculate_salary a bp hp pf pt st).employee_pf
          + (calculate_salary a bp hp pf pt st).employee_esi
          + (calculate_salary a bp hp pf pt st).professional_tax
          + (calculate_salary a bp hp pf pt st).tds
      ∧ (calculate_salary a bp hp pf pt st).tds = 0 := by
  refine ⟨rfl, rfl, ?_, rfl⟩
  simp only [calculate_salary, totalDeductionsOf]
  push_cast
  ring

/-- C2: the circular dependency between special allowance, employer ESI and
gross salary is resolved by exactly two passes: the pass-1 gross salary
equals `monthlyCTC - employerPF`; `employerESI` is computed from that
pass-1 gross when ESI-eligible; the final special allowance is
`monthlyCTC - basic - hra - employerPF - employerESI` floored at zero, and
the final gross salary is `basic + hra + specialAllowance`. -/
theorem C2_two_pass_resolution (a bp hp : ℚ) (pf : Bool) :
    grossSalary1Of a bp hp pf = monthly_ctc a - employerPFOf a bp pf
      ∧ employerESIOf a bp hp pf
        = (if esiApplicableOf a bp hp
            then pyround ((monthly_ctc a - (employerPFOf a bp pf : ℚ)) * ESI_EMPLOYER_RATE)
            else 0)
      ∧ specialAllowanceOf a bp hp pf
        = max 0 (monthly_ctc a - (basicOf a bp : ℚ) - (hraOf a bp hp : ℚ)
            - (employerPFOf a bp pf : ℚ) - (employerESIOf a bp hp pf : ℚ))
      ∧ grossSalaryOf a bp hp pf
        = (basicOf a bp : ℚ) + (hraOf a bp hp : ℚ) + specialAllowanceOf a bp hp pf := by
  refine ⟨grossSalary1Of_eq a bp hp pf, ?_, ?_, rfl⟩
  · unfold employerESIOf
    rw [grossSalary1Of_eq]
  · simp only [specialAllowanceOf]
    split_ifs with h
    · rw [eq_comm, max_eq_left (le_of_lt h)]
    · rw [eq_comm, max_eq_right (not_lt.mp h)]

/-- C3: ESI eligibility is decided once against the preliminary gross
`basic + hra` (a function of the CTC and the two percentages only, not of
the flags) compared to the 21000 ceiling, and that decision is reused for
`employeeESI`: it equals `round(grossSalary * 0.0075)` when the
preliminary gross is at or below 21000 and 0 when it exceeds 21000, even
when the final gross salary is on the other side of the ceiling. -/
theorem C3_esi_eligibility_locked (a bp hp : ℚ) (pf pt : Bool) (st : String) :
    esiApplicableOf a bp hp = decide (basicOf a bp + hraOf a bp hp ≤ 21000)
      ∧ (basicOf a bp + hraOf a bp hp ≤ 21000 →
          (calculate_salary a bp hp pf pt st).employee_esi
            = (pyround ((calculate_salary a bp hp pf pt st).gross_salary
                * ESI_EMPLOYEE_RATE) : ℚ))
      ∧ (21000 < basicOf a bp + hraOf a bp hp →
          (calculate_salary a bp hp pf pt st).employee_esi = 0) := by
  refine ⟨rfl, ?_, ?_⟩
  · intro h
    have he : esiApplicableOf a bp hp = true := by
      simp only [esiApplicableOf, ESI_GROSS_LIMIT, decide_eq_true_eq]
      exact h
    show (employeeESIOf a bp hp pf : ℚ) = _
    simp only [employeeESIOf, he, if_true]
    rfl
  · intro h
    have he : esiApplicableOf a bp hp = false := by
      simp only [esiApplicableOf, ESI_GROSS_LIMIT, decide_eq_false_iff_not]
      omega
    show (employeeESIOf a bp hp pf : ℚ) = 0
    simp [employeeESIOf, he]

/-- C3 witness: at annualCTC 1,200,000 with basicPercent 10, the
preliminary gross is 15,000 (eligible) while the final gross salary is
95,589, above the ceiling — yet employee ESI is still charged on it. -/
theorem C3_esi_eligibility_locked_witness :
    (calculate_salary 1200000 10 50 true true "Karnataka").employee_esi
        = (pyround ((calculate_salary 1200000 10 50 true true "Karnataka").gross_salary
            * ESI_EMPLOYEE_RATE) : ℚ)
      ∧ 21000 < (calculate_salary 1200000 10 50 true true "Karnataka").gross_salary :=
  ⟨(C3_esi_eligibility_locked 1200000 10 50 true true "Karnataka").2.1
      (by norm_num [basicOf, hraOf, monthly_ctc, pyround]),
    by
      norm_num [calculate_salary, grossSalaryOf, specialAllowanceOf, employerESIOf,
        grossSalary1Of, specialAllowance1Of, esiApplicableOf, employerPFOf, pfBasicOf,
        hraOf, basicOf, monthly_ctc, pyround, PF_BASIC_CAP, PF_EMPLOYER_EPF_RATE,
        PF_EMPLOYER_EPS_RATE, ESI_GROSS_LIMIT, ESI_EMPLOYER_RATE]⟩

/-- C4: with pfEnabled, employeePF is
`min(round(min(basic, 15000) * 0.12), 1800)`, hence never exceeds 1800;
with pfEnabled false both PF amounts are 0; with ptEnabled false the
professional tax is 0. -/
theorem C4_pf_cap_and_flags (a bp hp : ℚ) (pf pt : Bool) (st : String) :
    (calculate_salary a bp hp true pt st).employee_pf ≤ 1800
      ∧ (calculate_salary a bp hp true pt st).employee_pf
        = ((min (pyround ((min (basicOf a bp) 15000 : ℤ) * (12/100 : ℚ))) 1800 : ℤ) : ℚ)
      ∧ (calculate_salary a bp hp false pt st).employee_pf = 0
      ∧ (calculate_salary a bp hp false pt st).employer_pf = 0
      ∧ (calculate_salary a bp hp pf false st).professional_tax = 0 := by
  refine ⟨?_, ?_, ?_, ?_, ?_⟩
  · show ((employeePFOf a bp true : ℤ) : ℚ) ≤ 1800
    have h : employeePFOf a bp true ≤ 1800 := by
      simp only [employeePFOf, if_true, PF_MAX_EMPLOYEE]
      exact min_le_right _ _
    exact_mod_cast h
  · show ((employeePFOf a bp true : ℤ) : ℚ) = _
    simp only [employeePFOf, if_true, PF_MAX_EMPLOYEE, PF_EMPLOYEE_RATE, pfBasicOf,
      PF_BASIC_CAP]
  · show ((employeePFOf a bp false : ℤ) : ℚ) = 0
    simp [employeePFOf]
  · show ((employerPFOf a bp false : ℤ) : ℚ) = 0
    simp [employerPFOf]
  · show ((professionalTaxOf a bp hp pf false st : ℤ) : ℚ) = 0
    simp [professionalTaxOf]

/-- C6 counterexample: at annualCTC 100 (defaults), the special allowance
is 10/3 and the gross salary 25/3 — neither is a whole number of currency
units, so not every derived monetary amount is rounded after computation. -/
theorem C6_counterexample_unrounded_fields :
    ¬ isWhole (calculate_salary 100 40 50 true true "Karnataka").special_allowance
      ∧ ¬ isWhole (calculate_salary 100 40 50 true true "Karnataka").gross_salary := by
  have h1 : (calculate_salary 100 40 50 true true "Karnataka").special_allowance = 10/3 := by
    norm_num [calculate_salary, specialAllowanceOf, employerESIOf, grossSalary1Of,
      specialAllowance1Of, esiApplicableOf, employerPFOf, pfBasicOf, hraOf, basicOf,
      monthly_ctc, pyround, PF_BASIC_CAP, PF_EMPLOYER_EPF_RATE, PF_EMPLOYER_EPS_RATE,
      ESI_GROSS_LIMIT, ESI_EMPLOYER_RATE]
  have h2 : (calculate_salary 100 40 50 true true "Karnataka").gross_salary = 25/3 := by
    norm_num [calculate_salary, grossSalaryOf, specialAllowanceOf, employerESIOf,
      grossSalary1Of, specialAllowance1Of, esiApplicableOf, employerPFOf, pfBasicOf,
      hraOf, basicOf, monthly_ctc, pyround, PF_BASIC_CAP, PF_EMPLOYER_EPF_RATE,
      PF_EMPLOYER_EPS_RATE, ESI_GROSS_LIMIT, ESI_EMPLOYER_RATE]
  constructor
  · rw [h1]
    rintro ⟨n, hn⟩
    have h3 : ((3 * n : ℤ) : ℚ) = 10 := by
      push_cast
      rw [← hn]
      norm_num
    have h4 : (3 * n : ℤ) = 10 := by exact_mod_cast h3
    omega
  · rw [h2]
    rintro ⟨n, hn⟩
    have h3 : ((3 * n : ℤ) : ℚ) = 25 := by
      push_cast
      rw [← hn]
      norm_num
    have h4 : (3 * n : ℤ) = 25 := by exact_mod_cast h3
    omega

/-- C6 amended: every amount the source passes through `round` (basic,
hra, both PF amounts, both ESI amounts, professional tax, tds and the
total deductions) is a whole number of currency units, and monthlyCTC is
the exact unrounded `annualCTC / 12`; but the special allowance, gross
salary and net salary are never rounded — the gross is the exact sum
`basic + hra + specialAllowance` and can carry the fractional part of
monthlyCTC. -/
theorem C6_rounding_amended (a bp hp : ℚ) (pf pt : Bool) (st : String) :
    isWhole (calculate_salary a bp hp pf pt st).basic
      ∧ isWhole (calculate_salary a bp hp pf pt st).hra
      ∧ isWhole (calculate_salary a bp hp pf pt st).employer_pf
      ∧ isWhole (calculate_salary a bp hp pf pt st).employer_esi
      ∧ isWhole (calculate_salary a bp hp pf pt st).employee_pf
      ∧ isWhole (calculate_salary a bp hp pf pt st).employee_esi
      ∧ isWhole (calculate_salary a bp hp pf pt st).professional_tax
      ∧ (calculate_salary a bp hp pf pt st).tds = 0
      ∧ isWhole (calculate_salary a bp hp pf pt st).total_deductions
      ∧ (calculate_salary a bp hp pf pt st).monthly_ctc = a / 12
      ∧ (calculate_salary a bp hp pf pt st).gross_salary
        = (calculate_salary a bp hp pf pt st).basic
          + (calculate_salary a bp hp pf pt st).hra
          + (calculate_salary a bp hp pf pt st).special_allowance :=
  ⟨⟨basicOf a bp, rfl⟩, ⟨hraOf a bp hp, rfl⟩, ⟨employerPFOf a bp pf, rfl⟩,
    ⟨employerESIOf a bp hp pf, rfl⟩, ⟨employeePFOf a bp pf, rfl⟩,
    ⟨employeeESIOf a bp hp pf, rfl⟩, ⟨professionalTaxOf a bp hp pf pt st, rfl⟩, rfl,
    ⟨totalDeductionsOf a bp hp pf pt st, rfl⟩, rfl, rfl⟩

/-- C8: at annualCTC 300,000 with all defaults: basic 10,000, hra 5,000,
employeePF 1,200, positive employee ESI (the preliminary gross 15,000 is
at or below the 21,000 ceiling), and professional tax 200. -/
theorem C8_scenario_300k :
    (calculate_salary 300000 40 50 true true "Karnataka").basic = 10000
      ∧ (calculate_salary 300000 40 50 true true "Karnataka").hra = 5000
      ∧ (calculate_salary 300000 40 50 true true "Karnataka").employee_pf = 1200
      ∧ 0 < (calculate_salary 300000 40 50 true true "Karnataka").employee_esi
      ∧ (calculate_salary 300000 40 50 true true "Karnataka").professional_tax = 200
      ∧ basicOf 300000 40 + hraOf 300000 40 50 ≤ 21000 := by
  refine ⟨?_, ?_, ?_, ?_, ?_, ?_⟩ <;>
    norm_num [calculate_salary, professionalTaxOf, employeeESIOf, employeePFOf,
      grossSalaryOf, specialAllowanceOf, employerESIOf, grossSalary1Of,
      specialAllowance1Of, esiApplicableOf, employerPFOf, pfBasicOf, hraOf, basicOf,
      monthly_ctc, PT_RATES, karnatakaPT, pyround, PF_BASIC_CAP, PF_EMPLOYEE_RATE,
      PF_EMPLOYER_EPF_RATE, PF_EMPLOYER_EPS_RATE, PF_MAX_EMPLOYEE, ESI_GROSS_LIMIT,
      ESI_EMPLOYEE_RATE, ESI_EMPLOYER_RATE]

/-- C9: any state outside the five known jurisdictions falls back to the
Karnataka slab rule, so the whole output record equals the output for the
same input with state "Karnataka". -/
theorem C9_unknown_state_fallback (a bp hp : ℚ) (pf pt : Bool) (st : String)
    (h1 : st ≠ "Karnataka") (h2 : st ≠ "Maharashtra") (h3 : st ≠ "Tamil Nadu")
    (h4 : st ≠ "Gujarat") (h5 : st ≠ "Delhi") :
    calculate_salary a bp hp pf pt st = calculate_salary a bp hp pf pt "Karnataka" := by
  unfold calculate_salary netSalaryOf totalDeductionsOf professionalTaxOf PT_RATES
  simp [h1, h2, h3, h4, h5]

/-- C9 witness: the unknown state "Goa" produces exactly the Karnataka
output. -/
theorem C9_unknown_state_fallback_witness :
    calculate_salary 300000 40 50 true true "Goa"
      = calculate_salary 300000 40 50 true true "Karnataka" :=
  C9_unknown_state_fallback 300000 40 50 true true "Goa"
    (by decide) (by decide) (by decide) (by decide) (by decide)

/-- C10: whenever the pass-2 special allowance is not floored, the monthly
CTC is fully allocated: `grossSalary + employerPF + employerESI`
equals `monthlyCTC`, i.e.
`basic + hra + specialAllowance + employerPF + employerESI = annualCTC / 12`. -/
theorem C10_ctc_conservation (a bp hp : ℚ) (pf : Bool)
    (h : 0 ≤ monthly_ctc a - (basicOf a bp : ℚ) - (hraOf a bp hp : ℚ)
        - (employerPFOf a bp pf : ℚ) - (employerESIOf a bp hp pf : ℚ)) :
    grossSalaryOf a bp hp pf + (employerPFOf a bp pf : ℚ)
        + (employerESIOf a bp hp pf : ℚ) = monthly_ctc a
      ∧ (basicOf a bp : ℚ) + (hraOf a bp hp : ℚ) + specialAllowanceOf a bp hp pf
        + (employerPFOf a bp pf : ℚ) + (employerESIOf a bp hp pf : ℚ) = a / 12 := by
  have hs : specialAllowanceOf a bp hp pf
      = monthly_ctc a - (basicOf a bp : ℚ) - (hraOf a bp hp : ℚ)
        - (employerPFOf a bp pf : ℚ) - (employerESIOf a bp hp pf : ℚ) := by
    simp only [specialAllowanceOf]
    rw [if_neg (not_lt.mpr h)]
  constructor
  · unfold grossSalaryOf
    rw [hs]
    ring
  · rw [hs]
    unfold monthly_ctc
    ring

/-- C10 witness: at annualCTC 300,000 (defaults) the special allowance is
not floored and the monthly CTC of 25,000 is fully allocated. -/
theorem C10_ctc_conservation_witness :
    grossSalaryOf 300000 40 50 true + (employerPFOf 300000 40 true : ℚ)
        + (employerESIOf 300000 40 50 true : ℚ) = monthly_ctc 300000
      ∧ (basicOf 300000 40 : ℚ) + (hraOf 300000 40 50 : ℚ)
        + specialAllowanceOf 300000 40 50 true
        + (employerPFOf 300000 40 true : ℚ) + (employerESIOf 300000 40 50 true : ℚ)
        = 300000 / 12 :=
  C10_ctc_conservation 300000 40 50 true
    (by
      norm_num [employerESIOf, grossSalary1Of, specialAllowance1Of, esiApplicableOf,
        employerPFOf, pfBasicOf, hraOf, basicOf, monthly_ctc, pyround, PF_BASIC_CAP,
        PF_EMPLOYER_EPF_RATE, PF_EMPLOYER_EPS_RATE, ESI_GROSS_LIMIT, ESI_EMPLOYER_RATE])

/-- C5 counterexample: for annualCTC 1200 (positive) with basicPercent
100000 and hraPercent -100, the special allowance is floored to zero, the
gross salary is 0, and the net salary is -1800 — the computation alone
does not guarantee a non-negative net salary for every positive CTC. -/
theorem C5_counterexample_negative_net :
    (0 : ℚ) < 1200
      ∧ (calculate_salary 1200 100000 (-100) true true "Karnataka").net_salary < 0 := by
  constructor
  · norm_num
  · norm_num [calculate_salary, netSalaryOf, totalDeductionsOf, professionalTaxOf,
      employeeESIOf, employeePFOf, grossSalaryOf, specialAllowanceOf, employerESIOf,
      grossSalary1Of, specialAllowance1Of, esiApplicableOf, employerPFOf, pfBasicOf,
      hraOf, basicOf, monthly_ctc, PT_RATES, karnatakaPT, pyround, PF_BASIC_CAP,
      PF_EMPLOYEE_RATE, PF_EMPLOYER_EPF_RATE, PF_EMPLOYER_EPS_RATE, PF_MAX_EMPLOYEE,
      ESI_GROSS_LIMIT, ESI_EMPLOYEE_RATE, ESI_EMPLOYER_RATE, tdsOf]

/-- C5 amended: the special allowance in the output is never negative,
and for every input with positive annualCTC and non-negative basic and
HRA percentages the net salary is non-negative as well — guaranteed by
the computation itself, not by raising an error.  (The original claim,
quantifying over all inputs with positive annualCTC, fails when the
percentages are adversarial.) -/
theorem C5_nonneg_amended (a bp hp : ℚ) (pf pt : Bool) (st : String)
    (ha : 0 < a) (hbp : 0 ≤ bp) (hhp : 0 ≤ hp) :
    0 ≤ (calculate_salary a bp hp pf pt st).special_allowance
      ∧ 0 ≤ (calculate_salary a bp hp pf pt st).net_salary := by
  refine ⟨specialAllowanceOf_nonneg a bp hp pf, ?_⟩
  have hb0 : (0 : ℚ) ≤ (basicOf a bp : ℚ) := by exact_mod_cast basicOf_nonneg ha.le hbp
  have hh0 : (0 : ℚ) ≤ (hraOf a bp hp : ℚ) := by exact_mod_cast hraOf_nonneg ha.le hbp hhp
  have hpfb0 : (0 : ℚ) ≤ (pfBasicOf a bp : ℚ) := by exact_mod_cast pfBasicOf_nonneg ha.le hbp
  have hpfb_le : (pfBasicOf a bp : ℚ) ≤ (basicOf a bp : ℚ) := by
    have h := min_le_left (basicOf a bp) PF_BASIC_CAP
    simp only [pfBasicOf]
    exact_mod_cast h
  have hsp0 := specialAllowanceOf_nonneg a bp hp pf
  have hgb : (basicOf a bp : ℚ) + (hraOf a bp hp : ℚ) ≤ grossSalaryOf a bp hp pf := by
    unfold grossSalaryOf
    linarith
  have hg0 : 0 ≤ grossSalaryOf a bp hp pf := by linarith
  have hP0 : 0 ≤ pyround ((pfBasicOf a bp : ℚ) * (12/100)) :=
    pyround_nonneg (mul_nonneg hpfb0 (by norm_num))
  have hP_le : ((pyround ((pfBasicOf a bp : ℚ) * (12/100)) : ℤ) : ℚ)
      ≤ (pfBasicOf a bp : ℚ) * (12/100) + 1/2 := pyround_le _
  have hepf_le : ((employeePFOf a bp pf : ℤ) : ℚ)
      ≤ ((pyround ((pfBasicOf a bp : ℚ) * (12/100)) : ℤ) : ℚ) := by
    unfold employeePFOf
    split_ifs
    · rw [show PF_EMPLOYEE_RATE = (12/100 : ℚ) from rfl]
      have h := min_le_left (pyround ((pfBasicOf a bp : ℚ) * (12/100))) PF_MAX_EMPLOYEE
      exact_mod_cast h
    · exact_mod_cast hP0
  have hE0 : 0 ≤ pyround (grossSalaryOf a bp hp pf * (75/10000)) :=
    pyround_nonneg (mul_nonneg hg0 (by norm_num))
  have hE_le : ((pyround (grossSalaryOf a bp hp pf * (75/10000)) : ℤ) : ℚ)
      ≤ grossSalaryOf a bp hp pf * (75/10000) + 1/2 := pyround_le _
  have heesi_le : ((employeeESIOf a bp hp pf : ℤ) : ℚ)
      ≤ ((pyround (grossSalaryOf a bp hp pf * (75/10000)) : ℤ) : ℚ) := by
    unfold employeeESIOf
    split_ifs
    · rw [show ESI_EMPLOYEE_RATE = (75/10000 : ℚ) from rfl]
    · exact_mod_cast hE0
  have hpt_le : ((professionalTaxOf a bp hp pf pt st : ℤ) : ℚ) ≤ 208 := by
    unfold professionalTaxOf
    split_ifs
    · exact_mod_cast PT_RATES_le st (grossSalaryOf a bp hp pf)
    · norm_num
  have hpt0 : grossSalaryOf a bp hp pf ≤ 7500 →
      ((professionalTaxOf a bp hp pf pt st : ℤ) : ℚ) = 0 := by
    intro h7
    unfold professionalTaxOf
    split_ifs
    · exact_mod_cast PT_RATES_eq_zero st h7
    · norm_num
  show 0 ≤ netSalaryOf a bp hp pf pt st
  unfold netSalaryOf totalDeductionsOf tdsOf
  push_cast
  rcases le_or_lt (grossSalaryOf a bp hp pf) 4 with hc1 | hc1
  · have hPz : pyround ((pfBasicOf a bp : ℚ) * (12/100)) = 0 :=
      pyround_eq_zero (mul_nonneg hpfb0 (by norm_num)) (by linarith)
    have hEz : pyround (grossSalaryOf a bp hp pf * (75/10000)) = 0 :=
      pyround_eq_zero (mul_nonneg hg0 (by norm_num)) (by linarith)
    have h7 := hpt0 (by linarith)
    rw [hPz] at hepf_le
    rw [hEz] at heesi_le
    push_cast at hepf_le heesi_le
    linarith
  rcases le_or_lt (grossSalaryOf a bp hp pf) 66 with hc2 | hc2
  · have hEz : pyround (grossSalaryOf a bp hp pf * (75/10000)) = 0 :=
      pyround_eq_zero (mul_nonneg hg0 (by norm_num)) (by linarith)
    have h7 := hpt0 (by linarith)
    rw [hEz] at heesi_le
    push_cast at heesi_le
    linarith
  rcases le_or_lt (grossSalaryOf a bp hp pf) 7500 with hc3 | hc3
  · have h7 := hpt0 hc3
    linarith
  · linarith

/-- C5 amended witness: at annualCTC 300,000 with the default percentages
both the special allowance and the net salary are non-negative. -/
theorem C5_nonneg_amended_witness :
    0 ≤ (calculate_salary 300000 40 50 true true "Karnataka").special_allowance
      ∧ 0 ≤ (calculate_salary 300000 40 50 true true "Karnataka").net_salary :=
  C5_nonneg_amended 300000 40 50 true true "Karnataka"
    (by norm_num) (by norm_num) (by norm_num)

-- ── Monotonicity and increment bounds for the C7 analysis ──────────────

theorem monthly_ctc_mono {a1 a2 : ℚ} (h : a1 ≤ a2) : monthly_ctc a1 ≤ monthly_ctc a2 := by
  unfold monthly_ctc
  linarith

theorem basicOf_mono {a1 a2 bp : ℚ} (h : a1 ≤ a2) (hbp : 0 ≤ bp) :
    basicOf a1 bp ≤ basicOf a2 bp :=
  pyround_mono (mul_le_mul_of_nonneg_right (monthly_ctc_mono h) (div_nonneg hbp (by norm_num)))

theorem hraOf_mono {a1 a2 bp hp : ℚ} (h : a1 ≤ a2) (hbp : 0 ≤ bp) (hhp : 0 ≤ hp) :
    hraOf a1 bp hp ≤ hraOf a2 bp hp := by
  apply pyround_mono
  have hb : (basicOf a1 bp : ℚ) ≤ (basicOf a2 bp : ℚ) := by
    exact_mod_cast basicOf_mono h hbp
  exact mul_le_mul_of_nonneg_right hb (div_nonneg hhp (by norm_num))

theorem pfBasicOf_mono {a1 a2 bp : ℚ} (h : a1 ≤ a2) (hbp : 0 ≤ bp) :
    pfBasicOf a1 bp ≤ pfBasicOf a2 bp :=
  min_le_min (basicOf_mono h hbp) le_rfl

theorem employerPFOf_mono {a1 a2 bp : ℚ} (pf : Bool) (h : a1 ≤ a2) (hbp : 0 ≤ bp) :
    employerPFOf a1 bp pf ≤ employerPFOf a2 bp pf := by
  cases pf
  · simp [employerPFOf]
  · simp only [employerPFOf, if_true]
    apply pyround_mono
    have hm : (pfBasicOf a1 bp : ℚ) ≤ (pfBasicOf a2 bp : ℚ) := by
      exact_mod_cast pfBasicOf_mono h hbp
    exact mul_le_mul_of_nonneg_right hm
      (by norm_num [PF_EMPLOYER_EPF_RATE, PF_EMPLOYER_EPS_RATE])

theorem basicOf_delta {a1 a2 bp : ℚ} (h12 : a1 ≤ a2) (_hbp0 : 0 ≤ bp) (hbp1 : bp ≤ 100) :
    (basicOf a2 bp : ℚ) - (basicOf a1 bp : ℚ) ≤ (monthly_ctc a2 - monthly_ctc a1) + 1 := by
  have h1 := pyround_le (monthly_ctc a2 * (bp/100))
  have h2 := le_pyround (monthly_ctc a1 * (bp/100))
  have hm : 0 ≤ monthly_ctc a2 - monthly_ctc a1 := by
    unfold monthly_ctc
    linarith
  have h3 : (monthly_ctc a2 - monthly_ctc a1) * (bp/100)
      ≤ (monthly_ctc a2 - monthly_ctc a1) * 1 :=
    mul_le_mul_of_nonneg_left (by linarith) hm
  have h4 : monthly_ctc a2 * (bp/100) - monthly_ctc a1 * (bp/100)
      = (monthly_ctc a2 - monthly_ctc a1) * (bp/100) := by ring
  unfold basicOf
  linarith

theorem employerPFOf_delta {a1 a2 bp : ℚ} (pf : Bool) (h12 : a1 ≤ a2) (hbp0 : 0 ≤ bp)
    (hbp1 : bp ≤ 100) :
    (employerPFOf a2 bp pf : ℚ) - (employerPFOf a1 bp pf : ℚ)
      ≤ (12/100) * (monthly_ctc a2 - monthly_ctc a1) + 112/100 := by
  have hm : 0 ≤ monthly_ctc a2 - monthly_ctc a1 := by
    unfold monthly_ctc
    linarith
  cases pf
  · simp only [employerPFOf, Bool.false_eq_true, if_false]
    push_cast
    linarith
  · have hb := basicOf_delta h12 hbp0 hbp1
    have hpfb_delta : (pfBasicOf a2 bp : ℚ) - (pfBasicOf a1 bp : ℚ)
        ≤ (basicOf a2 bp : ℚ) - (basicOf a1 bp : ℚ) := by
      have h : pfBasicOf a2 bp - pfBasicOf a1 bp ≤ basicOf a2 bp - basicOf a1 bp := by
        have hmono := basicOf_mono h12 hbp0
        unfold pfBasicOf
        rcases le_total (basicOf a1 bp) PF_BASIC_CAP with h1 | h1 <;>
          rcases le_total (basicOf a2 bp) PF_BASIC_CAP with h2 | h2
        · rw [min_eq_left h1, min_eq_left h2]
        · rw [min_eq_left h1, min_eq_right h2]
          omega
        · rw [min_eq_right h1, min_eq_left h2]
          omega
        · rw [min_eq_right h1, min_eq_right h2]
          omega
      exact_mod_cast h
    have hr : PF_EMPLOYER_EPF_RATE + PF_EMPLOYER_EPS_RATE = (12/100 : ℚ) := by
      norm_num [PF_EMPLOYER_EPF_RATE, PF_EMPLOYER_EPS_RATE]
    simp only [employerPFOf, if_true, hr]
    have hP2 := pyround_le ((pfBasicOf a2 bp : ℚ) * (12/100))
    have hP1 := le_pyround ((pfBasicOf a1 bp : ℚ) * (12/100))
    linarith

theorem esiApplicableOf_transfer {a1 a2 bp hp : ℚ} (h12 : a1 ≤ a2) (hbp : 0 ≤ bp)
    (hhp : 0 ≤ hp) (h : esiApplicableOf a2 bp hp = true) :
    esiApplicableOf a1 bp hp = true := by
  simp only [esiApplicableOf, decide_eq_true_eq, ESI_GROSS_LIMIT] at *
  have hb := basicOf_mono h12 hbp
  have hh := hraOf_mono h12 hbp hhp
  omega

theorem grossSalary1Of_nonneg {a bp : ℚ} (pf : Bool) (ha : 0 < a) (hbp0 : 0 ≤ bp)
    (hbp1 : bp ≤ 100) : 0 ≤ monthly_ctc a - (employerPFOf a bp pf : ℚ) := by
  have hm : 0 < monthly_ctc a := by
    unfold monthly_ctc
    linarith
  have hble : (basicOf a bp : ℚ) ≤ monthly_ctc a + 1/2 := by
    have h1 := pyround_le (monthly_ctc a * (bp/100))
    have h3 : monthly_ctc a * (bp/100) ≤ monthly_ctc a * 1 :=
      mul_le_mul_of_nonneg_left (by linarith) (le_of_lt hm)
    unfold basicOf
    linarith
  have hpfb0 : (0 : ℚ) ≤ (pfBasicOf a bp : ℚ) := by
    exact_mod_cast pfBasicOf_nonneg ha.le hbp0
  have hpfb_le : (pfBasicOf a bp : ℚ) ≤ (basicOf a bp : ℚ) := by
    have h := min_le_left (basicOf a bp) PF_BASIC_CAP
    simp only [pfBasicOf]
    exact_mod_cast h
  rcases le_or_lt (2/3 : ℚ) (monthly_ctc a) with hc | hc
  · have hepf := employerPFOf_le pf hpfb0
    linarith
  · have hb1 : basicOf a bp ≤ 1 := by
      have h2 : (basicOf a bp : ℚ) < 2 := by linarith
      have h3 : basicOf a bp < 2 := by exact_mod_cast h2
      omega
    have hpfb1 : (pfBasicOf a bp : ℚ) ≤ 1 := by
      have h : pfBasicOf a bp ≤ 1 := le_trans (min_le_left _ _) hb1
      exact_mod_cast h
    have hz : pyround ((pfBasicOf a bp : ℚ) * (PF_EMPLOYER_EPF_RATE + PF_EMPLOYER_EPS_RATE))
        = 0 := by
      rw [show PF_EMPLOYER_EPF_RATE + PF_EMPLOYER_EPS_RATE = (12/100 : ℚ) from by
        norm_num [PF_EMPLOYER_EPF_RATE, PF_EMPLOYER_EPS_RATE]]
      exact pyround_eq_zero (mul_nonneg hpfb0 (by norm_num)) (by linarith)
    have hepf0 : (employerPFOf a bp pf : ℚ) = 0 := by
      unfold employerPFOf
      split_ifs
      · exact_mod_cast hz
      · norm_num
    linarith

theorem employerESIOf_nonneg {a bp hp : ℚ} (pf : Bool) (ha : 0 < a) (hbp0 : 0 ≤ bp)
    (hbp1 : bp ≤ 100) : 0 ≤ employerESIOf a bp hp pf := by
  unfold employerESIOf
  split_ifs
  · apply pyround_nonneg
    rw [grossSalary1Of_eq]
    exact mul_nonneg (grossSalary1Of_nonneg pf ha hbp0 hbp1)
      (by norm_num [ESI_EMPLOYER_RATE])
  · exact le_refl 0

/-- C7 amended: gross salary is not monotone in annualCTC (see the
counterexample), but the failure is bounded by the rounding slack: for two
inputs agreeing on the percentages (taken in the ordinary range 0..100 for
the basic percent, non-negative for the HRA percent), the flags and the
state, raising a positive annualCTC can lower the gross salary by at most
3 rupees. -/
theorem C7_gross_bounded_drop_amended (a1 a2 bp hp : ℚ) (pf pt : Bool) (st : String)
    (ha : 0 < a1) (h12 : a1 ≤ a2) (hbp0 : 0 ≤ bp) (hbp1 : bp ≤ 100) (hhp0 : 0 ≤ hp) :
    (calculate_salary a1 bp hp pf pt st).gross_salary - 3
      ≤ (calculate_salary a2 bp hp pf pt st).gross_salary := by
  show grossSalaryOf a1 bp hp pf - 3 ≤ grossSalaryOf a2 bp hp pf
  have hb : (basicOf a1 bp : ℚ) ≤ (basicOf a2 bp : ℚ) := by
    exact_mod_cast basicOf_mono h12 hbp0
  have hh : (hraOf a1 bp hp : ℚ) ≤ (hraOf a2 bp hp : ℚ) := by
    exact_mod_cast hraOf_mono h12 hbp0 hhp0
  have hm : monthly_ctc a1 ≤ monthly_ctc a2 := monthly_ctc_mono h12
  have hepfm : (employerPFOf a1 bp pf : ℚ) ≤ (employerPFOf a2 bp pf : ℚ) := by
    exact_mod_cast employerPFOf_mono pf h12 hbp0
  have hepfd := employerPFOf_delta pf h12 hbp0 hbp1
  have hX : monthly_ctc a1 - (employerPFOf a1 bp pf : ℚ) - (employerESIOf a1 bp hp pf : ℚ) - 3
      ≤ monthly_ctc a2 - (employerPFOf a2 bp pf : ℚ) - (employerESIOf a2 bp hp pf : ℚ) := by
    cases hE2 : esiApplicableOf a2 bp hp
    · have heesi20 : employerESIOf a2 bp hp pf = 0 := by
        simp [employerESIOf, hE2]
      cases hE1 : esiApplicableOf a1 bp hp
      · have heesi10 : employerESIOf a1 bp hp pf = 0 := by
          simp [employerESIOf, hE1]
        rw [heesi10, heesi20]
        push_cast
        linarith
      · have hge : 0 ≤ employerESIOf a1 bp hp pf :=
          employerESIOf_nonneg pf ha hbp0 hbp1
        have hge_q : (0 : ℚ) ≤ (employerESIOf a1 bp hp pf : ℚ) := by exact_mod_cast hge
        rw [heesi20]
        push_cast
        linarith
    · have hE1 := esiApplicableOf_transfer h12 hbp0 hhp0 hE2
      have heq1 : employerESIOf a1 bp hp pf
          = pyround ((monthly_ctc a1 - (employerPFOf a1 bp pf : ℚ)) * ESI_EMPLOYER_RATE) := by
        simp only [employerESIOf, hE1, if_true, grossSalary1Of_eq]
      have heq2 : employerESIOf a2 bp hp pf
          = pyround ((monthly_ctc a2 - (employerPFOf a2 bp pf : ℚ)) * ESI_EMPLOYER_RATE) := by
        simp only [employerESIOf, hE2, if_true, grossSalary1Of_eq]
      have hr : ESI_EMPLOYER_RATE = (325/10000 : ℚ) := rfl
      rw [heq1, heq2, hr]
      have hA := pyround_le ((monthly_ctc a2 - (employerPFOf a2 bp pf : ℚ)) * (325/10000))
      have hB := le_pyround ((monthly_ctc a1 - (employerPFOf a1 bp pf : ℚ)) * (325/10000))
      nlinarith [hA, hB, hm, hepfm, hepfd]
  rw [grossSalaryOf_eq_max, grossSalaryOf_eq_max, sub_le_iff_le_add]
  apply max_le
  · have h2 := le_max_left ((basicOf a2 bp : ℚ) + (hraOf a2 bp hp : ℚ))
      (monthly_ctc a2 - (employerPFOf a2 bp pf : ℚ) - (employerESIOf a2 bp hp pf : ℚ))
    linarith
  · have h2 := le_max_right ((basicOf a2 bp : ℚ) + (hraOf a2 bp hp : ℚ))
      (monthly_ctc a2 - (employerPFOf a2 bp pf : ℚ) - (employerESIOf a2 bp hp pf : ℚ))
    linarith

/-- C7 amended witness: between annualCTC 132 and 138 (defaults) the
gross salary drops only from 11 to 10.5, within the bound of 3. -/
theorem C7_gross_bounded_drop_amended_witness :
    (calculate_salary 132 40 50 true true "Karnataka").gross_salary - 3
      ≤ (calculate_salary 138 40 50 true true "Karnataka").gross_salary :=
  C7_gross_bounded_drop_amended 132 138 40 50 true true "Karnataka"
    (by norm_num) (by norm_num) (by norm_num) (by norm_num) (by norm_num)

/-- C7 counterexample: with all other parameters at their defaults,
raising annualCTC from 132 to 138 lowers the gross salary from 11 to
10.5 — increasing the CTC can decrease the gross salary. -/
theorem C7_counterexample_non_monotone :
    (132 : ℚ) < 138
      ∧ (calculate_salary 138 40 50 true true "Karnataka").gross_salary
        < (calculate_salary 132 40 50 true true "Karnataka").gross_salary := by
  constructor
  · norm_num
  · norm_num [calculate_salary, grossSalaryOf, specialAllowanceOf, employerESIOf,
      grossSalary1Of, specialAllowance1Of, esiApplicableOf, employerPFOf, pfBasicOf,
      hraOf, basicOf, monthly_ctc, pyround, PF_BASIC_CAP, PF_EMPLOYER_EPF_RATE,
      PF_EMPLOYER_EPS_RATE, ESI_GROSS_LIMIT, ESI_EMPLOYER_RATE]

end PayEase
